import Mathlib

/-!
Verification of the policy-rule persistence engine of the `sqlx-adapter`
repository (`src/actions.rs`, `src/models.rs`) against its natural-language
specification.

The adapter persists casbin policy rules into a relational table with columns
`(id, ptype, v0..v5)`.  We embed the table as a list of rows (the auto-assigned
`id` column never participates in matching, uniqueness is over the seven
semantic columns, so rows are modelled by those seven strings), SQL statements
as the row-level predicates they evaluate (all columns are declared NOT NULL,
so the `v_i IS NULL` disjuncts of the source's DELETE statements are vacuous
and `COALESCE(x, v_i)` reduces to `v_i` exactly when the bound value `x` is
NULL), and transactions as explicit working-state passing where an error
discards the working state (the sqlx transaction guard rolls back when dropped
without commit).  The SQL text builders are also embedded verbatim as string
functions so that dialect-level claims (placeholder style, interpolated table
name) can be settled on the exact query text.
-/

set_option maxHeartbeats 1000000
set_option maxRecDepth 100000

namespace SqlxAdapter

/-- Rust `usize` width: machine arithmetic wraps modulo `2 ^ 64`
(release-profile semantics of arithmetic overflow). -/
def USIZE : Nat := 2 ^ 64

/-- Wrapping `usize` subtraction `a - b` (valid for `a b < USIZE`). -/
def usizeSub (a b : Nat) : Nat := (USIZE + a - b) % USIZE

/-- A stored row, `models.rs::CasbinRule` restricted to the seven semantic
columns; the auto-increment `id` never participates in matching or in the
uniqueness constraint's seven-column tuple, so it is omitted.  The same seven
string fields also model `models.rs::NewCasbinRule` (the borrowed insert
payload). -/
structure CasbinRule where
  ptype : String
  v0 : String
  v1 : String
  v2 : String
  v3 : String
  v4 : String
  v5 : String
deriving DecidableEq, Repr, Inhabited

/-- The backing table: the list of stored rows. -/
abbrev Table := List CasbinRule

/-- The sqlx-level errors the adapter code produces or forwards:
`sqlx::Error::RowNotFound` (raised by the adapter itself when a statement
inside a transaction does not affect exactly one row) and the database's
unique-constraint violation on duplicate tuples. -/
inductive SqlxError where
  | RowNotFound
  | UniqueViolation
deriving DecidableEq, Repr

/-- Failure of the table-name identifier validation (spec §4.1 / §7). -/
inductive AdapterFailure where
  | InvalidIdentifier
deriving DecidableEq, Repr

/-- `Vec::resize(n, d)`: truncate to `n` elements when longer, right-pad with
copies of `d` when shorter. -/
def vecResize (xs : List α) (n : Nat) (d : α) : List α :=
  xs.take n ++ List.replicate (n - xs.length) d

/-- `actions.rs::normalize_casbin_rule`: `rule.resize(6, String::new())`. -/
def normalize_casbin_rule (rule : List String) : List String :=
  vecResize rule 6 ("")

/-- `actions.rs::normalize_casbin_rule_option`: map each supplied value to
`None` when empty and `Some` otherwise, then `resize(6, None)`. -/
def normalize_casbin_rule_option (rule : List String) : List (Option String) :=
  vecResize (rule.map fun x => if x.isEmpty then none else some x) 6 none

/-- The i-th field column `v_i` of a row (`v0..v5`). -/
def fieldAt (row : CasbinRule) (i : Nat) : String :=
  ([row.v0, row.v1, row.v2, row.v3, row.v4, row.v5]).getD i ("")

/-- The WHERE clause of the exact-match DELETE of
`actions.rs::remove_policy`: `ptype = $1 AND v0 = $2 AND ... AND v5 = $7`,
with `$2..$7` bound to the six normalized fields in order. -/
def ruleMatchesExact (pt : String) (r : List String) (row : CasbinRule) : Bool :=
  row.ptype == pt && row.v0 == r.getD 0 ("") && row.v1 == r.getD 1 ("") &&
    row.v2 == r.getD 2 ("") && row.v3 == r.getD 3 ("") &&
    row.v4 == r.getD 4 ("") && row.v5 == r.getD 5 ("")

/-- `actions.rs::remove_policy` (postgres variant; sqlite and mysql differ
only in placeholder syntax): normalize the rule, delete every row matching
ptype and all six fields, report `rows_affected == 1`. -/
def remove_policy (table : Table) (pt : String) (rule : List String) :
    Table × Bool :=
  let r := normalize_casbin_rule rule
  let rows_affected := (table.filter (ruleMatchesExact pt r)).length
  (table.filter fun row => !(ruleMatchesExact pt r row), rows_affected == 1)

/-- Rows affected by executing a single-tuple INSERT against `table`: the
unique constraint over `(ptype, v0..v5)` makes the insert error on a duplicate
tuple, otherwise exactly one row is inserted. -/
def insert_rows_affected (table : Table) (rule : CasbinRule) :
    Except SqlxError Nat :=
  if table.any fun row => row == rule then
    Except.error SqlxError.UniqueViolation
  else
    Except.ok 1

/-- `actions.rs::add_policy`: execute the single INSERT, report
`rows_affected == 1`; a duplicate tuple surfaces as a storage error. -/
def add_policy (table : Table) (rule : CasbinRule) :
    Except SqlxError (Table × Bool) :=
  match insert_rows_affected table rule with
  | Except.error e => Except.error e
  | Except.ok n => Except.ok (table ++ [rule], n == 1)

/-- The statement shape `actions.rs::remove_filtered_policy` selects: the
`if/else if` chain tests `field_index == 5, 4, 3, 2, 1` in turn and every
other value (including every value above 5) falls into the final `else`
branch, which is the `field_index = 0` shape constraining `v0..v5`. -/
def branch_index (field_index : Nat) : Nat :=
  if field_index == 5 then 5
  else if field_index == 4 then 4
  else if field_index == 3 then 3
  else if field_index == 2 then 2
  else if field_index == 1 then 1
  else 0

/-- The values bound after `ptype` by `remove_filtered_policy`:
`field_values.iter().take(6 - field_index)` over the normalized option list,
with the `usize` subtraction wrapping on underflow. -/
def remove_filtered_bound_values (field_index : Nat) (field_values : List String) :
    List (Option String) :=
  (normalize_casbin_rule_option field_values).take (usizeSub 6 field_index)

/-- Total number of values bound to the filtered DELETE: the `ptype` binding
plus the field-value bindings. -/
def remove_filtered_bind_count (field_index : Nat) (field_values : List String) : Nat :=
  1 + (remove_filtered_bound_values field_index field_values).length

/-- One position of the filtered-DELETE predicate
`(v_i IS NULL OR v_i = COALESCE($k, v_i))` on a NOT NULL column: when the
bound value is SQL NULL (`none`) the comparison degenerates to `v_i = v_i`,
which holds for every stored value; otherwise it is an exact match. -/
def coalesceMatch (bound : Option String) (stored : String) : Bool :=
  match bound with
  | none => true
  | some v => stored == v

/-- The WHERE clause of the filtered DELETE: `ptype` matched exactly, and for
the `6 - k` constrained positions `k, k+1, ..., 5` (where `k` is the selected
branch) the NULL-coalescing predicate against the bound value sequence. -/
def removeFilteredPred (pt : String) (field_index : Nat) (field_values : List String)
    (row : CasbinRule) : Bool :=
  let k := branch_index field_index
  let bound := remove_filtered_bound_values field_index field_values
  row.ptype == pt &&
    (List.range (6 - k)).all fun j => coalesceMatch (bound.getD j none) (fieldAt row (k + j))

/-- `actions.rs::remove_filtered_policy` (postgres variant): normalize the
supplied values to options, delete every row satisfying the filtered
predicate, report `rows_affected >= 1`. -/
def remove_filtered_policy (table : Table) (pt : String) (field_index : Nat)
    (field_values : List String) : Table × Bool :=
  let rows_affected :=
    (table.filter (removeFilteredPred pt field_index field_values)).length
  (table.filter fun row => !(removeFilteredPred pt field_index field_values row),
    Nat.ble 1 rows_affected)

/-- One DELETE statement inside the `remove_policies` transaction: the exact
delete followed by the adapter's `rows_affected == 1` check, which turns any
other count into `SqlxError::RowNotFound`. -/
def delete_exact_statement (working : Table) (pt : String) (rule : List String) :
    Except SqlxError Table :=
  let r := normalize_casbin_rule rule
  let rows_affected := (working.filter (ruleMatchesExact pt r)).length
  if rows_affected == 1 then
    Except.ok (working.filter fun row => !(ruleMatchesExact pt r row))
  else
    Except.error SqlxError.RowNotFound

/-- The statement loop of `remove_policies`, threading the transaction's
working state; the `?` operator aborts the loop at the first failure. -/
def run_deletes (pt : String) : Table → List (List String) → Except SqlxError Table
  | working, [] => Except.ok working
  | working, rule :: rest =>
    match delete_exact_statement working pt rule with
    | Except.ok w => run_deletes pt w rest
    | Except.error e => Except.error e

/-- `actions.rs::remove_policies`: run every exact DELETE inside one
transaction; on any failure the transaction guard is dropped without commit,
which rolls the store back to the pre-call table. -/
def remove_policies (table : Table) (pt : String) (rules : List (List String)) :
    Table × Except SqlxError Bool :=
  match run_deletes pt table rules with
  | Except.ok w => (w, Except.ok true)
  | Except.error e => (table, Except.error e)

/-- One INSERT statement inside a transaction: the single-tuple insert
followed by the adapter's `rows_affected == 1` check (a successful insert
affects exactly one row; a duplicate tuple errors on the unique constraint). -/
def insert_statement (working : Table) (rule : CasbinRule) :
    Except SqlxError Table :=
  match insert_rows_affected working rule with
  | Except.error e => Except.error e
  | Except.ok n =>
    if n == 1 then Except.ok (working ++ [rule])
    else Except.error SqlxError.RowNotFound

/-- The statement loop shared by `add_policies` and the insert phase of
`save_policy`, threading the transaction's working state. -/
def run_inserts : Table → List CasbinRule → Except SqlxError Table
  | working, [] => Except.ok working
  | working, rule :: rest =>
    match insert_statement working rule with
    | Except.ok w => run_inserts w rest
    | Except.error e => Except.error e

/-- `actions.rs::add_policies`: run every INSERT inside one transaction;
failure rolls back to the pre-call table. -/
def add_policies (table : Table) (rules : List CasbinRule) :
    Table × Except SqlxError Bool :=
  match run_inserts table rules with
  | Except.ok w => (w, Except.ok true)
  | Except.error e => (table, Except.error e)

/-- Rows affected by the `DELETE FROM {table}` clear statement that opens the
`save_policy` transaction: every stored row.  The source applies no
`rows_affected` check to this statement. -/
def save_policy_clear_rows_affected (table : Table) : Nat := table.length

/-- `actions.rs::save_policy`: inside one transaction, clear the table (no
row-count check) and insert every rule with the `rows_affected == 1` check;
failure rolls back to the pre-call table. -/
def save_policy (table : Table) (rules : List CasbinRule) :
    Table × Except SqlxError Unit :=
  match run_inserts ([] : Table) rules with
  | Except.ok w => (w, Except.ok ())
  | Except.error e => (table, Except.error e)

/-- The unconditional effect of one exact DELETE (no row-count check). -/
def apply_delete (working : Table) (pt : String) (rule : List String) : Table :=
  working.filter fun row => !(ruleMatchesExact pt (normalize_casbin_rule rule) row)

/-- Sequentially applying the exact DELETEs of a batch with no row-count
checks; used to describe the working state a transactional batch reaches. -/
def apply_deletes (pt : String) : Table → List (List String) → Table
  | working, [] => working
  | working, rule :: rest => apply_deletes pt (apply_delete working pt rule) rest

/-- Number of rows one exact DELETE of the batch affects at its turn. -/
def delete_count (working : Table) (pt : String) (rule : List String) : Nat :=
  (working.filter (ruleMatchesExact pt (normalize_casbin_rule rule))).length

/-- SQL `LIKE` pattern matching over characters: `%` matches any (possibly
empty) sequence, `_` matches exactly one character, anything else matches
itself. -/
def likeMatch : List Char → List Char → Bool
  | [], [] => true
  | [], _ :: _ => false
  | '%' :: p, [] => likeMatch p []
  | '%' :: p, c :: s => likeMatch p (c :: s) || likeMatch ('%' :: p) s
  | '_' :: _, [] => false
  | '_' :: p, _ :: s => likeMatch p s
  | _ :: _, [] => false
  | a :: p, c :: s => a == c && likeMatch p s
termination_by p s => (p.length, s.length)

/-- `LIKE` on strings. -/
def strLike (pat s : String) : Bool := likeMatch pat.data s.data

/-- The `for (idx, val) in filter.iter().enumerate()` loop of
`actions.rs::filtered_where_values`: non-empty values overwrite the slot at
their index in the fixed six-element array; writing past the end of the array
is an out-of-bounds panic (`none`). -/
def fwv_loop : List String → Nat → List String → Option (List String)
  | acc, _, [] => some acc
  | acc, idx, val :: rest =>
    if val != "" then
      if idx < acc.length then fwv_loop (acc.set idx val) (idx + 1) rest
      else none
    else fwv_loop acc (idx + 1) rest

/-- `actions.rs::filtered_where_values`: start from two arrays of six
match-any wildcards and overwrite each position that the filter constrains
with a non-empty pattern (grouping array first, then policy array). -/
def filtered_where_values (g p : List String) :
    Option (List String × List String) :=
  match fwv_loop (List.replicate 6 ("%")) 0 g with
  | none => none
  | some gf =>
    match fwv_loop (List.replicate 6 ("%")) 0 p with
    | none => none
    | some pf => some (gf, pf)

/-- The WHERE clause of the filtered SELECT of
`actions.rs::load_filtered_policy` (postgres variant): a disjunction of the
grouping branch (`ptype LIKE 'g%'` and the six grouping patterns bound to
`$1..$6`) and the policy branch (`ptype LIKE 'p%'` and the six policy
patterns bound to `$7..$12`). -/
def loadFilteredPred (gf pf : List String) (row : CasbinRule) : Bool :=
  (strLike ("g%") row.ptype &&
    (List.range 6).all fun i => strLike (gf.getD i ("%")) (fieldAt row i)) ||
  (strLike ("p%") row.ptype &&
    (List.range 6).all fun i => strLike (pf.getD i ("%")) (fieldAt row i))

/-- `actions.rs::load_filtered_policy` (postgres variant): translate the
filter, then select exactly the rows satisfying the two-branch disjunction;
a panic inside `filtered_where_values` propagates. -/
def load_filtered_policy (table : Table) (g p : List String) : Option Table :=
  match filtered_where_values g p with
  | none => none
  | some (gf, pf) => some (table.filter (loadFilteredPred gf pf))

/-- A character the identifier whitelist accepts: ASCII alphanumeric,
underscore, or dot. -/
def isIdentChar (c : Char) : Bool := c.isAlphanum || c == '_' || c == '.'

/-- Modelled from the spec: the Identifier Validator (spec §4.1) is part of
this repository's adapter layer, which is not among the given source files
(`actions.rs` interpolates the already-validated name).  "Accepts only names
composed exclusively of ASCII alphanumerics, underscore, and dot.  Rejects
(fails with `InvalidIdentifier`) any other character." -/
def validate (name : String) : Except AdapterFailure Unit :=
  if name.data.all isIdentChar then Except.ok ()
  else Except.error AdapterFailure.InvalidIdentifier

/-- The `CREATE TABLE IF NOT EXISTS` text built by
`actions.rs::new_with_table_name` (postgres variant), with the table name
interpolated at its two `format!` holes. -/
def create_table_query (table_name : String) : String :=
  "CREATE TABLE IF NOT EXISTS " ++ table_name ++ " (
                    id SERIAL PRIMARY KEY,
                    ptype VARCHAR NOT NULL,
                    v0 VARCHAR NOT NULL,
                    v1 VARCHAR NOT NULL,
                    v2 VARCHAR NOT NULL,
                    v3 VARCHAR NOT NULL,
                    v4 VARCHAR NOT NULL,
                    v5 VARCHAR NOT NULL,
                    CONSTRAINT unique_key_sqlx_adapter_" ++ table_name ++ " UNIQUE(ptype, v0, v1, v2, v3, v4, v5)
                    );
        "

/-- Modelled from the spec: every public entry point that accepts a table
name "must run before the Identifier is ever interpolated into a SQL string"
(spec §4.1); the public adapter layer wrapping `actions.rs` is not among the
given source files.  The modelled entry point validates first and only on
success produces the SQL text with the name interpolated. -/
def new_with_table_name_checked (table_name : String) :
    Except AdapterFailure String :=
  match validate table_name with
  | Except.error e => Except.error e
  | Except.ok _ => Except.ok (create_table_query table_name)

/-- Modelled from the spec: the Row-to-Rule Mapper (spec §4.7) lives in the
adapter layer outside the given source files.  "copies `ptype` plus `v0..v5`,
then trims trailing empty fields to recover the original arity"; modelled on
the six-field list. -/
def to_abstract (fields : List String) : List String :=
  (fields.reverse.dropWhile fun s => s == "").reverse

/-- Is `p` a (character-list) leading segment of `s`? -/
def listStartsWith : List Char → List Char → Bool
  | [], _ => true
  | _ :: _, [] => false
  | a :: as, b :: bs => a == b && listStartsWith as bs

/-- Does `needle` occur contiguously inside the character list? -/
def hasSubstr (needle : List Char) : List Char → Bool
  | [] => needle.isEmpty
  | c :: rest => listStartsWith needle (c :: rest) || hasSubstr needle rest

/-- Does `needle` occur contiguously inside `hay`? -/
def strContains (hay needle : String) : Bool := hasSubstr needle.data hay.data

/-- Number of occurrences of a character in a string. -/
def countChar (c : Char) (s : String) : Nat := s.data.count c

/-- The DELETE text built by `actions.rs::remove_filtered_policy` (postgres
variant), verbatim per selected branch: numbered `$n` placeholders, one
statement shape per `field_index` in `1..=5` and the `field_index = 0` shape
with seven placeholders for every other value. -/
def remove_filtered_query_postgres (table_name : String) (field_index : Nat) : String :=
  if field_index == 5 then
    "DELETE FROM " ++ table_name ++ " WHERE
                    ptype = $1 AND
                    (v5 is NULL OR v5 = COALESCE($2,v5))"
  else if field_index == 4 then
    "DELETE FROM " ++ table_name ++ " WHERE
                    ptype = $1 AND
                    (v4 is NULL OR v4 = COALESCE($2,v4)) AND
                    (v5 is NULL OR v5 = COALESCE($3,v5))"
  else if field_index == 3 then
    "DELETE FROM " ++ table_name ++ " WHERE
                    ptype = $1 AND
                    (v3 is NULL OR v3 = COALESCE($2,v3)) AND
                    (v4 is NULL OR v4 = COALESCE($3,v4)) AND
                    (v5 is NULL OR v5 = COALESCE($4,v5))"
  else if field_index == 2 then
    "DELETE FROM " ++ table_name ++ " WHERE
                    ptype = $1 AND
                    (v2 is NULL OR v2 = COALESCE($2,v2)) AND
                    (v3 is NULL OR v3 = COALESCE($3,v3)) AND
                    (v4 is NULL OR v4 = COALESCE($4,v4)) AND
                    (v5 is NULL OR v5 = COALESCE($5,v5))"
  else if field_index == 1 then
    "DELETE FROM " ++ table_name ++ " WHERE
                    ptype = $1 AND
                    (v1 is NULL OR v1 = COALESCE($2,v1)) AND
                    (v2 is NULL OR v2 = COALESCE($3,v2)) AND
                    (v3 is NULL OR v3 = COALESCE($4,v3)) AND
                    (v4 is NULL OR v4 = COALESCE($5,v4)) AND
                    (v5 is NULL OR v5 = COALESCE($6,v5))"
  else
    "DELETE FROM " ++ table_name ++ " WHERE
                    ptype = $1 AND
                    (v0 is NULL OR v0 = COALESCE($2,v0)) AND
                    (v1 is NULL OR v1 = COALESCE($3,v1)) AND
                    (v2 is NULL OR v2 = COALESCE($4,v2)) AND
                    (v3 is NULL OR v3 = COALESCE($5,v3)) AND
                    (v4 is NULL OR v4 = COALESCE($6,v4)) AND
                    (v5 is NULL OR v5 = COALESCE($7,v5))"

/-- The DELETE text built by `actions.rs::remove_filtered_policy` (sqlite
variant), verbatim: the `field_index == 5` branch matches `ptype` with the
postgres-style `$1` while the field predicate uses `?2`, the other branches
use `?n` throughout. -/
def remove_filtered_query_sqlite (table_name : String) (field_index : Nat) : String :=
  if field_index == 5 then
    "DELETE FROM " ++ table_name ++ " WHERE
                    ptype = $1 AND
                    (v5 is NULL OR v5 = COALESCE(?2,v5))"
  else if field_index == 4 then
    "DELETE FROM " ++ table_name ++ " WHERE
                    ptype = ?1 AND
                    (v4 is NULL OR v4 = COALESCE(?2,v4)) AND
                    (v5 is NULL OR v5 = COALESCE(?3,v5))"
  else if field_index == 3 then
    "DELETE FROM " ++ table_name ++ " WHERE
                    ptype = ?1 AND
                    (v3 is NULL OR v3 = COALESCE(?2,v3)) AND
                    (v4 is NULL OR v4 = COALESCE(?3,v4)) AND
                    (v5 is NULL OR v5 = COALESCE(?4,v5))"
  else if field_index == 2 then
    "DELETE FROM " ++ table_name ++ " WHERE
                    ptype = ?1 AND
                    (v2 is NULL OR v2 = COALESCE(?2,v2)) AND
                    (v3 is NULL OR v3 = COALESCE(?3,v3)) AND
                    (v4 is NULL OR v4 = COALESCE(?4,v4)) AND
                    (v5 is NULL OR v5 = COALESCE(?5,v5))"
  else if field_index == 1 then
    "DELETE FROM " ++ table_name ++ " WHERE
                    ptype = ?1 AND
                    (v1 is NULL OR v1 = COALESCE(?2,v1)) AND
                    (v2 is NULL OR v2 = COALESCE(?3,v2)) AND
                    (v3 is NULL OR v3 = COALESCE(?4,v3)) AND
                    (v4 is NULL OR v4 = COALESCE(?5,v4)) AND
                    (v5 is NULL OR v5 = COALESCE(?6,v5))"
  else
    "DELETE FROM " ++ table_name ++ " WHERE
                    ptype = ?1 AND
                    (v0 is NULL OR v0 = COALESCE(?2,v0)) AND
                    (v1 is NULL OR v1 = COALESCE(?3,v1)) AND
                    (v2 is NULL OR v2 = COALESCE(?4,v2)) AND
                    (v3 is NULL OR v3 = COALESCE(?5,v3)) AND
                    (v4 is NULL OR v4 = COALESCE(?6,v4)) AND
                    (v5 is NULL OR v5 = COALESCE(?7,v5))"

/-- The SELECT text built by `actions.rs::load_filtered_policy` (postgres
variant): the caller's table name is interpolated at the single `format!`
hole, patterns are bound to `$1..$12`. -/
def load_filtered_query_postgres (table_name : String) : String :=
  "SELECT id, ptype, v0, v1, v2, v3, v4, v5 from " ++ table_name ++ " WHERE (
            ptype LIKE \x27g%\x27 AND v0 LIKE $1 AND v1 LIKE $2 AND v2 LIKE $3 AND v3 LIKE $4 AND v4 LIKE $5 AND v5 LIKE $6 )
        OR (
            ptype LIKE \x27p%\x27 AND v0 LIKE $7 AND v1 LIKE $8 AND v2 LIKE $9 AND v3 LIKE $10 AND v4 LIKE $11 AND v5 LIKE $12 );
            "

/-- The SELECT text of `actions.rs::load_filtered_policy` (sqlite variant),
verbatim: the function takes no table name and the template hard-codes
`casbin_rule`; the template has no `format!` holes, so the twelve pattern
arguments passed to `format!` in the source never reach the text, and the
function issues no `.bind` calls. -/
def load_filtered_query_sqlite : String :=
  "SELECT id, ptype, v0, v1, v2, v3, v4, v5 from  casbin_rule WHERE (
            ptype LIKE \x27g%\x27 AND v0 LIKE $1 AND v1 LIKE $2 AND v2 LIKE $3 AND v3 LIKE $4 AND v4 LIKE $5 AND v5 LIKE $6 )
        OR (
            ptype LIKE \x27p%\x27 AND v0 LIKE $7 AND v1 LIKE $8 AND v2 LIKE $9 AND v3 LIKE $10 AND v4 LIKE $11 AND v5 LIKE $12 );
            "

/-- The SELECT text of `actions.rs::load_filtered_policy` (mysql variant),
verbatim: no table name parameter, `casbin_rule` hard-coded, `?` placeholders
with no `.bind` calls (the twelve `format!` arguments are unused by the
template). -/
def load_filtered_query_mysql : String :=
  "SELECT id, ptype, v0, v1, v2, v3, v4, v5 from  casbin_rule WHERE (
            ptype LIKE \x27g%\x27 AND v0 LIKE ? AND v1 LIKE ? AND v2 LIKE ? AND v3 LIKE ? AND v4 LIKE ? AND v5 LIKE ? )
        OR (
            ptype LIKE \x27p%\x27 AND v0 LIKE ? AND v1 LIKE ? AND v2 LIKE ? AND v3 LIKE ? AND v4 LIKE ? AND v5 LIKE ? );
            "

/-! ### Helper lemmas -/

theorem normalize_casbin_rule_length (rule : List String) :
    (normalize_casbin_rule rule).length = 6 := by
  simp [normalize_casbin_rule, vecResize, List.length_append, List.length_take,
    List.length_replicate]
  omega

theorem normalize_casbin_rule_option_length (rule : List String) :
    (normalize_casbin_rule_option rule).length = 6 := by
  simp [normalize_casbin_rule_option, vecResize, List.length_append, List.length_take,
    List.length_replicate, List.length_map]
  omega

theorem normalize_casbin_rule_eq_append (rule : List String) (h : rule.length ≤ 6) :
    normalize_casbin_rule rule = rule ++ List.replicate (6 - rule.length) ("") := by
  simp [normalize_casbin_rule, vecResize, List.take_of_length_le h]

theorem length_filter_add_length_filter_not (p : α → Bool) (l : List α) :
    (l.filter p).length + (l.filter fun a => !(p a)).length = l.length := by
  induction l with
  | nil => rfl
  | cons a t ih =>
    cases h : p a <;> simp [List.filter_cons, h] <;> omega

theorem getD_set (l : List α) (i j : Nat) (v d : α) (h : i < l.length) :
    (l.set i v).getD j d = if i = j then v else l.getD j d := by
  by_cases hij : i = j
  · subst hij
    simp [List.getD_eq_getElem?_getD, List.getElem?_set, h]
  · simp [List.getD_eq_getElem?_getD, List.getElem?_set, hij]

/-! ### C6: fixed-width normalization -/

/-- C6 counterexample: a rule with seven elements does not make
`normalize_casbin_rule` fail; `Vec::resize(6, String::new())` silently
truncates it to its first six elements and returns normally. -/
theorem normalize_truncates_counterexample :
    normalize_casbin_rule (["a", "b", "c", "d", "e", "f", "g"]) =
      (["a", "b", "c", "d", "e", "f"]) := by
  decide

/-- C6 (amended): normalization always yields exactly six fields,
right-padding shorter rules with empty strings; a rule with more than six
elements does not fail but is silently truncated to its first six elements. -/
theorem normalize_fixed_width_amended (rule : List String) :
    (normalize_casbin_rule rule).length = 6 ∧
    (rule.length ≤ 6 →
      normalize_casbin_rule rule = rule ++ List.replicate (6 - rule.length) ("")) ∧
    (6 ≤ rule.length → normalize_casbin_rule rule = rule.take 6) := by
  refine ⟨normalize_casbin_rule_length rule,
    fun h => normalize_casbin_rule_eq_append rule h, fun h => ?_⟩
  simp [normalize_casbin_rule, vecResize, Nat.sub_eq_zero_of_le h]

/-- Witness for C6 at the two-field rule. -/
theorem normalize_fixed_width_amended_witness :
    normalize_casbin_rule (["p", "x"]) =
      (["p", "x"]) ++ List.replicate (6 - (["p", "x"] : List String).length) ("") :=
  (normalize_fixed_width_amended (["p", "x"])).2.1 (by decide)

/-! ### C1: identifier validation -/

/-- C1: every table name containing a character outside ASCII alphanumerics,
underscore and dot is rejected with `InvalidIdentifier` and no SQL text is
produced; every name composed only of those characters passes validation,
after which (and only then) the entry point interpolates the name into the
SQL text. -/
theorem validate_table_name_spec (name : String) :
    ((∃ c ∈ name.data, isIdentChar c = false) →
      validate name = Except.error AdapterFailure.InvalidIdentifier ∧
      new_with_table_name_checked name = Except.error AdapterFailure.InvalidIdentifier) ∧
    ((∀ c ∈ name.data, isIdentChar c = true) →
      validate name = Except.ok () ∧
      new_with_table_name_checked name = Except.ok (create_table_query name)) := by
  constructor
  · rintro ⟨c, hc, hbad⟩
    have hall : name.data.all isIdentChar = false :=
      List.all_eq_false.mpr ⟨c, hc, by simp [hbad]⟩
    exact ⟨by simp [validate, hall], by simp [new_with_table_name_checked, validate, hall]⟩
  · intro hok
    have hall : name.data.all isIdentChar = true := List.all_eq_true.mpr hok
    exact ⟨by simp [validate, hall], by simp [new_with_table_name_checked, validate, hall]⟩

/-- Witness for C1: a name with an injection attempt is rejected, a plain
name is accepted. -/
theorem validate_table_name_spec_witness :
    validate ("ok_table.v2") = Except.ok () ∧
    validate ("users; DROP TABLE x") = Except.error AdapterFailure.InvalidIdentifier :=
  ⟨((validate_table_name_spec ("ok_table.v2")).2 (by decide)).1,
    ((validate_table_name_spec ("users; DROP TABLE x")).1 (by decide)).1⟩

/-! ### The filter-to-wildcard loop -/

theorem fwv_loop_some (vals : List String) :
    ∀ (acc : List String) (idx : Nat), idx + vals.length ≤ acc.length →
      ∃ a, fwv_loop acc idx vals = some a ∧ a.length = acc.length ∧
        ∀ j, a.getD j ("") =
          if idx ≤ j ∧ j - idx < vals.length ∧ vals.getD (j - idx) ("") ≠ "" then
            vals.getD (j - idx) ("")
          else acc.getD j ("") := by
  induction vals with
  | nil =>
    intro acc idx _
    refine ⟨acc, rfl, rfl, fun j => ?_⟩
    rw [if_neg]
    rintro ⟨-, h2, -⟩
    simp at h2
  | cons val rest ih =>
    intro acc idx hlen
    simp only [List.length_cons] at hlen
    by_cases hval : val = ""
    · subst hval
      obtain ⟨a, ha, halen, haget⟩ := ih acc (idx + 1) (by omega)
      refine ⟨a, by simp [fwv_loop, ha], halen, fun j => ?_⟩
      rw [haget j]
      simp only [List.length_cons]
      rcases Nat.lt_trichotomy j idx with hj | hj | hj
      · have c1 : ¬(idx + 1 ≤ j) := by omega
        have c2 : ¬(idx ≤ j) := by omega
        simp [c1, c2]
      · have c1 : ¬(idx + 1 ≤ j) := by omega
        have hz : j - idx = 0 := by omega
        have c2 : ¬(idx ≤ j ∧ j - idx < rest.length + 1 ∧
            (("" :: rest).getD (j - idx) ("") ≠ "")) := by
          rw [hz, List.getD_cons_zero]
          rintro ⟨-, -, h3⟩
          exact h3 rfl
        rw [if_neg (fun h => c1 h.1), if_neg c2]
      · have hm : j - idx = (j - (idx + 1)) + 1 := by omega
        have hgx : ("" :: rest).getD (j - idx) ("") = rest.getD (j - (idx + 1)) ("") := by
          rw [hm, List.getD_cons_succ]
        by_cases hc : rest.getD (j - (idx + 1)) ("") = ""
        · have c1 : ¬(idx + 1 ≤ j ∧ j - (idx + 1) < rest.length ∧
              (rest.getD (j - (idx + 1)) ("") ≠ "")) := fun h => h.2.2 hc
          have c2 : ¬(idx ≤ j ∧ j - idx < rest.length + 1 ∧
              (("" :: rest).getD (j - idx) ("") ≠ "")) := by
            rw [hgx]
            exact fun h => h.2.2 hc
          rw [if_neg c1, if_neg c2]
        · by_cases hb : j - (idx + 1) < rest.length
          · rw [if_pos ⟨by omega, hb, hc⟩, if_pos ⟨by omega, by omega, by rw [hgx]; exact hc⟩, hgx]
          · have c1 : ¬(idx + 1 ≤ j ∧ j - (idx + 1) < rest.length ∧
                (rest.getD (j - (idx + 1)) ("") ≠ "")) := fun h => hb h.2.1
            have c2 : ¬(idx ≤ j ∧ j - idx < rest.length + 1 ∧
                (("" :: rest).getD (j - idx) ("") ≠ "")) := by
              rintro ⟨-, h2, -⟩
              omega
            rw [if_neg c1, if_neg c2]
    · have hidx : idx < acc.length := by omega
      have hstep : fwv_loop acc idx (val :: rest) = fwv_loop (acc.set idx val) (idx + 1) rest := by
        simp [fwv_loop, hval, hidx]
      obtain ⟨a, ha, halen, haget⟩ :=
        ih (acc.set idx val) (idx + 1) (by rw [List.length_set]; omega)
      refine ⟨a, by rw [hstep, ha], by rw [halen, List.length_set], fun j => ?_⟩
      rw [haget j]
      simp only [List.length_cons]
      rcases Nat.lt_trichotomy j idx with hj | hj | hj
      · have c1 : ¬(idx + 1 ≤ j) := by omega
        have c2 : ¬(idx ≤ j) := by omega
        have hset : (acc.set idx val).getD j ("") = acc.getD j ("") := by
          rw [getD_set acc idx j val ("") hidx, if_neg (by omega)]
        rw [if_neg (fun h => c1 h.1), if_neg (fun h => c2 h.1), hset]
      · have c1 : ¬(idx + 1 ≤ j) := by omega
        have hz : j - idx = 0 := by omega
        have c2 : idx ≤ j ∧ j - idx < rest.length + 1 ∧
            ((val :: rest).getD (j - idx) ("") ≠ "") := by
          rw [hz, List.getD_cons_zero]
          exact ⟨by omega, by omega, hval⟩
        have hset : (acc.set idx val).getD j ("") = val := by
          rw [getD_set acc idx j val ("") hidx, if_pos hj.symm]
        rw [if_neg (fun h => c1 h.1), if_pos c2, hz, List.getD_cons_zero, hset]
      · have hm : j - idx = (j - (idx + 1)) + 1 := by omega
        have hgx : (val :: rest).getD (j - idx) ("") = rest.getD (j - (idx + 1)) ("") := by
          rw [hm, List.getD_cons_succ]
        have hset : (acc.set idx val).getD j ("") = acc.getD j ("") := by
          rw [getD_set acc idx j val ("") hidx, if_neg (by omega)]
        by_cases hc : rest.getD (j - (idx + 1)) ("") = ""
        · have c1 : ¬(idx + 1 ≤ j ∧ j - (idx + 1) < rest.length ∧
              (rest.getD (j - (idx + 1)) ("") ≠ "")) := fun h => h.2.2 hc
          have c2 : ¬(idx ≤ j ∧ j - idx < rest.length + 1 ∧
              ((val :: rest).getD (j - idx) ("") ≠ "")) := by
            rw [hgx]
            exact fun h => h.2.2 hc
          rw [if_neg c1, if_neg c2, hset]
        · by_cases hb : j - (idx + 1) < rest.length
          · rw [if_pos ⟨by omega, hb, hc⟩, if_pos ⟨by omega, by omega, by rw [hgx]; exact hc⟩, hgx]
          · have c1 : ¬(idx + 1 ≤ j ∧ j - (idx + 1) < rest.length ∧
                (rest.getD (j - (idx + 1)) ("") ≠ "")) := fun h => hb h.2.1
            have c2 : ¬(idx ≤ j ∧ j - idx < rest.length + 1 ∧
                ((val :: rest).getD (j - idx) ("") ≠ "")) := by
              rintro ⟨-, h2, -⟩
              omega
            rw [if_neg c1, if_neg c2, hset]

theorem filtered_where_values_some (g p : List String) (hg : g.length ≤ 6)
    (hp : p.length ≤ 6) :
    ∃ gf pf, filtered_where_values g p = some (gf, pf) ∧
      gf.length = 6 ∧ pf.length = 6 ∧
      (∀ j < 6, gf.getD j ("") = if g.getD j ("") = "" then "%" else g.getD j ("")) ∧
      (∀ j < 6, pf.getD j ("") = if p.getD j ("") = "" then "%" else p.getD j ("")) := by
  have hrep : (List.replicate 6 ("%") : List String).length = 6 := by simp
  have key : ∀ (vals : List String), vals.length ≤ 6 →
      ∃ a, fwv_loop (List.replicate 6 ("%")) 0 vals = some a ∧ a.length = 6 ∧
        ∀ j < 6, a.getD j ("") = if vals.getD j ("") = "" then "%" else vals.getD j ("") := by
    intro vals hv
    obtain ⟨a, ha, halen, haget⟩ := fwv_loop_some vals (List.replicate 6 ("%")) 0 (by simp; omega)
    refine ⟨a, ha, by rw [halen, hrep], fun j hj => ?_⟩
    rw [haget j, Nat.sub_zero]
    have hrepj : (List.replicate 6 ("%") : List String).getD j ("") = "%" := by
      rw [List.getD_eq_getElem?_getD, List.getElem?_replicate, if_pos hj]
      rfl
    by_cases hc : vals.getD j ("") = ""
    · rw [if_neg (by rintro ⟨-, -, h3⟩; exact h3 hc), if_pos hc, hrepj]
    · have hjlt : j < vals.length := by
        by_contra hge
        exact hc (List.getD_eq_default vals ("") (by omega))
      rw [if_pos ⟨Nat.zero_le j, hjlt, hc⟩, if_neg hc]
  obtain ⟨gf, hgf, hgflen, hgfget⟩ := key g hg
  obtain ⟨pf, hpf, hpflen, hpfget⟩ := key p hp
  refine ⟨gf, pf, ?_, hgflen, hpflen, hgfget, hpfget⟩
  unfold filtered_where_values
  rw [hgf, hpf]

/-! ### C10: bounds of the filter translation -/

/-- C10: a filter whose pattern array has more than six entries (its seventh
entry non-empty) makes the translation index its fixed six-element array out
of bounds, a panic; with at most six patterns per array the translation is
total. -/
theorem filtered_where_values_bounds :
    filtered_where_values (["a", "b", "c", "d", "e", "f", "g"]) ([]) = none ∧
    ∀ g p : List String, g.length ≤ 6 → p.length ≤ 6 →
      (filtered_where_values g p).isSome = true := by
  constructor
  · decide
  · intro g p hg hp
    obtain ⟨gf, pf, h, -⟩ := filtered_where_values_some g p hg hp
    simp [h]

/-- Witness for C10's totality part on a short filter. -/
theorem filtered_where_values_bounds_witness :
    (filtered_where_values (["alice", ""]) (["role"])).isSome = true :=
  filtered_where_values_bounds.2 (["alice", ""]) (["role"]) (by decide) (by decide)

/-! ### C9: out-of-range field_index -/

/-- C9 counterexample: at `field_index = 7` the placeholder count and the
bound-value count do not disagree — the wrapped `6 - 7` subtraction makes
`take` keep all six normalized values, so seven placeholders meet seven
bound values. -/
theorem field_index_seven_counts_agree :
    countChar '$' (remove_filtered_query_postgres ("casbin_rule") 7) = 7 ∧
    remove_filtered_bind_count 7 (["a", "b", "c", "d", "e", "f"]) = 7 := by
  constructor
  · decide
  · decide

/-- C9 (amended): any `field_index > 5` is not rejected and selects the
`field_index = 0` branch with its seven-placeholder statement; at
`field_index = 6` zero field values are bound, so the placeholder count (7)
and the bound-value count (1) disagree, while for `field_index > 6` the
`usize` subtraction `6 - field_index` wraps and all six normalized values are
bound, making the counts agree at seven. -/
theorem field_index_overflow_amended (field_index : Nat) (field_values : List String)
    (h5 : 5 < field_index) (hw : field_index < USIZE) :
    branch_index field_index = 0 ∧
    remove_filtered_query_postgres ("casbin_rule") field_index =
      remove_filtered_query_postgres ("casbin_rule") 0 ∧
    countChar '$' (remove_filtered_query_postgres ("casbin_rule") field_index) = 7 ∧
    (field_index = 6 → remove_filtered_bind_count field_index field_values = 1) ∧
    (6 < field_index → remove_filtered_bind_count field_index field_values = 7) := by
  have h1 : field_index ≠ 1 := by omega
  have h2 : field_index ≠ 2 := by omega
  have h3 : field_index ≠ 3 := by omega
  have h4 : field_index ≠ 4 := by omega
  have h5' : field_index ≠ 5 := by omega
  have hq : remove_filtered_query_postgres ("casbin_rule") field_index =
      remove_filtered_query_postgres ("casbin_rule") 0 := by
    simp [remove_filtered_query_postgres, h1, h2, h3, h4, h5']
  refine ⟨by simp [branch_index, h1, h2, h3, h4, h5'], hq, by rw [hq]; decide, ?_, ?_⟩
  · rintro rfl
    have hz : usizeSub 6 6 = 0 := by norm_num [usizeSub, USIZE]
    simp [remove_filtered_bind_count, remove_filtered_bound_values, hz]
  · intro h6
    have hU : USIZE = 18446744073709551616 := by norm_num [USIZE]
    have hlt : USIZE + 6 - field_index < USIZE := by omega
    have hsub : usizeSub 6 field_index = USIZE + 6 - field_index := Nat.mod_eq_of_lt hlt
    have hnl : (normalize_casbin_rule_option field_values).length = 6 :=
      normalize_casbin_rule_option_length field_values
    simp only [remove_filtered_bind_count, remove_filtered_bound_values, hsub,
      List.length_take, hnl]
    omega

/-- Witness for C9 at `field_index = 6`. -/
theorem field_index_overflow_amended_witness :
    branch_index 6 = 0 ∧ remove_filtered_bind_count 6 ([]) = 1 :=
  ⟨(field_index_overflow_amended 6 ([]) (by decide) (by norm_num [USIZE])).1,
    (field_index_overflow_amended 6 ([]) (by decide) (by norm_num [USIZE])).2.2.2.1 rfl⟩

/-! ### C4: dialect parity -/

/-- C4 (code-bug evaluation): the sqlite `remove_filtered_policy` statement at
`field_index = 5` mixes the postgres-style `$1` and the sqlite-style `?2`
placeholder in one statement; the sqlite and mysql `load_filtered_policy`
queries hard-code the `casbin_rule` table instead of the caller-supplied
table name (they never mention another table and do not even take one), while
the postgres variant interpolates the caller's name. -/
theorem dialect_divergence :
    strContains (remove_filtered_query_sqlite ("casbin_rule") 5) ("$1") = true ∧
    strContains (remove_filtered_query_sqlite ("casbin_rule") 5) ("?2") = true ∧
    strContains (load_filtered_query_sqlite) ("casbin_rule") = true ∧
    strContains (load_filtered_query_sqlite) ("policies") = false ∧
    strContains (load_filtered_query_mysql) ("casbin_rule") = true ∧
    strContains (load_filtered_query_postgres ("policies")) ("policies") = true ∧
    strContains (load_filtered_query_postgres ("policies")) ("casbin_rule") = false := by
  refine ⟨?_, ?_, ?_, ?_, ?_, ?_, ?_⟩ <;> decide

/-! ### C7: single-row operations -/

/-- C7: `add_policy` errors exactly on a duplicate tuple and otherwise
appends exactly one row and returns true; `remove_policy` removes exactly the
rows matching ptype and all six normalized fields and returns true iff
exactly one stored row matched (the removed-row count, by the length
equation). -/
theorem single_row_ops_spec (table : Table) (rule : CasbinRule) (pt : String)
    (r : List String) :
    (add_policy table rule = Except.error SqlxError.UniqueViolation ↔ rule ∈ table) ∧
    (∀ t b, add_policy table rule = Except.ok (t, b) →
      b = true ∧ t = table ++ [rule] ∧ t.length = table.length + 1) ∧
    (∀ row, row ∈ (remove_policy table pt r).1 ↔ row ∈ table ∧
      ¬(row.ptype = pt ∧ row.v0 = (normalize_casbin_rule r).getD 0 ("") ∧
        row.v1 = (normalize_casbin_rule r).getD 1 ("") ∧
        row.v2 = (normalize_casbin_rule r).getD 2 ("") ∧
        row.v3 = (normalize_casbin_rule r).getD 3 ("") ∧
        row.v4 = (normalize_casbin_rule r).getD 4 ("") ∧
        row.v5 = (normalize_casbin_rule r).getD 5 (""))) ∧
    ((remove_policy table pt r).2 = true ↔
      (table.filter (ruleMatchesExact pt (normalize_casbin_rule r))).length = 1) ∧
    table.length = (remove_policy table pt r).1.length +
      (table.filter (ruleMatchesExact pt (normalize_casbin_rule r))).length := by
  have hmem : (table.any fun row => row == rule) = true ↔ rule ∈ table := by
    rw [List.any_eq_true]
    constructor
    · rintro ⟨x, hx, hbeq⟩
      rw [beq_iff_eq] at hbeq
      rwa [hbeq] at hx
    · intro h
      exact ⟨rule, h, by simp⟩
  have hchar : ∀ row, ruleMatchesExact pt (normalize_casbin_rule r) row = true ↔
      (row.ptype = pt ∧ row.v0 = (normalize_casbin_rule r).getD 0 ("") ∧
        row.v1 = (normalize_casbin_rule r).getD 1 ("") ∧
        row.v2 = (normalize_casbin_rule r).getD 2 ("") ∧
        row.v3 = (normalize_casbin_rule r).getD 3 ("") ∧
        row.v4 = (normalize_casbin_rule r).getD 4 ("") ∧
        row.v5 = (normalize_casbin_rule r).getD 5 ("")) := by
    intro row
    simp [ruleMatchesExact, Bool.and_eq_true, beq_iff_eq]
    tauto
  refine ⟨?_, ?_, ?_, ?_, ?_⟩
  · by_cases hc : rule ∈ table
    · simp [add_policy, insert_rows_affected, hmem.mpr hc, hc]
    · have : (table.any fun row => row == rule) = false := by
        rw [Bool.eq_false_iff]
        exact fun h => hc (hmem.mp h)
      simp [add_policy, insert_rows_affected, this, hc]
  · intro t b h
    by_cases hc : rule ∈ table
    · rw [add_policy, insert_rows_affected, if_pos (hmem.mpr hc)] at h
      cases h
    · have hfalse : ¬((table.any fun row => row == rule) = true) := fun ha => hc (hmem.mp ha)
      rw [add_policy, insert_rows_affected, if_neg hfalse] at h
      injection h with h
      injection h with h1 h2
      refine ⟨h2.symm, h1.symm, ?_⟩
      rw [← h1]
      simp
  · intro row
    rw [remove_policy]
    simp only [List.mem_filter, Bool.not_eq_true', Bool.eq_false_iff]
    simp only [ne_eq, hchar row]
  · rw [remove_policy]
    simp [beq_iff_eq]
  · rw [remove_policy]
    have := length_filter_add_length_filter_not (ruleMatchesExact pt (normalize_casbin_rule r)) table
    simp only []
    omega

/-- Witness for C7: a one-row table from which the exact rule is removed. -/
theorem single_row_ops_spec_witness :
    (remove_policy ([⟨"p", "alice", "data1", "read", "", "", ""⟩]) ("p")
        (["alice", "data1", "read"])).2 = true :=
  ((single_row_ops_spec ([⟨"p", "alice", "data1", "read", "", "", ""⟩])
      (⟨"p", "alice", "data1", "read", "", "", ""⟩) ("p")
      (["alice", "data1", "read"])).2.2.2.1).mpr (by decide)

/-! ### C2: filtered delete semantics -/

theorem branch_index_of_le (fi : Nat) (h : fi ≤ 5) : branch_index fi = fi := by
  interval_cases fi <;> rfl

theorem usizeSub_six (fi : Nat) (h : fi ≤ 6) : usizeSub 6 fi = 6 - fi := by
  have hU : USIZE = 18446744073709551616 := by norm_num [USIZE]
  unfold usizeSub
  rw [hU]
  omega

theorem normalize_option_getD (vals : List String) (j : Nat) (hj : j < 6) :
    (normalize_casbin_rule_option vals).getD j none =
      if vals.getD j ("") = "" then none else some (vals.getD j ("")) := by
  unfold normalize_casbin_rule_option vecResize
  rw [List.getD_eq_getElem?_getD, List.getElem?_append]
  by_cases hlen : j < vals.length
  · have hmin : j < (List.take 6 (vals.map fun x => if x.isEmpty then none else some x)).length := by
      simp only [List.length_take, List.length_map]
      omega
    rw [if_pos hmin, List.getElem?_take, if_pos hj, List.getElem?_map,
      List.getElem?_eq_getElem hlen]
    rw [List.getD_eq_getElem vals ("") hlen]
    by_cases he : vals[j] = ""
    · simp [he, String.isEmpty_iff]
    · have hne : vals[j].isEmpty = false := by
        rw [Bool.eq_false_iff]
        exact fun hx => he ((String.isEmpty_iff vals[j]).mp hx)
      simp [hne, he]
  · have hvlen : vals.length ≤ j := Nat.le_of_not_lt hlen
    have hmin : ¬ j <
        (List.take 6 (vals.map fun x => if x.isEmpty then none else some x)).length := by
      simp only [List.length_take, List.length_map]
      omega
    rw [if_neg hmin, List.getElem?_replicate, List.getD_eq_default vals ("") hvlen, if_pos rfl]
    by_cases hr : j - (List.take 6 (vals.map fun x => if x.isEmpty then none else some x)).length
        < 6 - (vals.map fun x => if x.isEmpty then none else some x).length
    · rw [if_pos hr]
      rfl
    · rw [if_neg hr]
      rfl

theorem remove_filtered_bound_getD (fi : Nat) (vals : List String) (j : Nat)
    (hfi : fi ≤ 5) (hj : j < 6 - fi) :
    (remove_filtered_bound_values fi vals).getD j none =
      if vals.getD j ("") = "" then none else some (vals.getD j ("")) := by
  unfold remove_filtered_bound_values
  rw [usizeSub_six fi (by omega), List.getD_eq_getElem?_getD, List.getElem?_take, if_pos hj,
    ← List.getD_eq_getElem?_getD]
  exact normalize_option_getD vals j (by omega)

theorem removeFilteredPred_iff (pt : String) (fi : Nat) (vals : List String)
    (row : CasbinRule) (hfi : fi ≤ 5) :
    removeFilteredPred pt fi vals row = true ↔
      (row.ptype = pt ∧ ∀ i, fi ≤ i → i ≤ 5 →
        (vals.getD (i - fi) ("") = "" ∨ fieldAt row i = vals.getD (i - fi) (""))) := by
  have hb : branch_index fi = fi := branch_index_of_le fi hfi
  unfold removeFilteredPred
  rw [hb]
  simp only [Bool.and_eq_true, beq_iff_eq, List.all_eq_true, List.mem_range]
  constructor
  · rintro ⟨hpt, hall⟩
    refine ⟨hpt, fun i h1 h2 => ?_⟩
    have hj : i - fi < 6 - fi := by omega
    have hc := hall (i - fi) hj
    rw [remove_filtered_bound_getD fi vals (i - fi) hfi hj] at hc
    by_cases he : vals.getD (i - fi) ("") = ""
    · exact Or.inl he
    · rw [if_neg he] at hc
      right
      rw [(by omega : fi + (i - fi) = i)] at hc
      simpa [coalesceMatch, beq_iff_eq] using hc
  · rintro ⟨hpt, hall⟩
    refine ⟨hpt, fun j hj => ?_⟩
    rw [remove_filtered_bound_getD fi vals j hfi hj]
    by_cases he : vals.getD j ("") = ""
    · rw [if_pos he]
      rfl
    · rw [if_neg he]
      have hi := hall (fi + j) (by omega) (by omega)
      rw [Nat.add_sub_cancel_left] at hi
      rcases hi with h | h
      · exact absurd h he
      · simpa [coalesceMatch, beq_iff_eq] using h

/-- C2: the filtered delete matches `ptype` exactly, and at each constrained
position a row passes when the caller supplied no value there (empty string
mapped to absent, matching anything) or the stored field equals the supplied
value exactly; the call reports true iff at least one row was removed. -/
theorem remove_filtered_policy_spec (table : Table) (pt : String) (field_index : Nat)
    (field_values : List String) (hfi : field_index ≤ 5) :
    ((remove_filtered_policy table pt field_index field_values).2 = true ↔
      ∃ row ∈ table, row.ptype = pt ∧ ∀ i, field_index ≤ i → i ≤ 5 →
        (field_values.getD (i - field_index) ("") = "" ∨
          fieldAt row i = field_values.getD (i - field_index) (""))) ∧
    (∀ row, row ∈ (remove_filtered_policy table pt field_index field_values).1 ↔
      row ∈ table ∧ ¬(row.ptype = pt ∧ ∀ i, field_index ≤ i → i ≤ 5 →
        (field_values.getD (i - field_index) ("") = "" ∨
          fieldAt row i = field_values.getD (i - field_index) ("")))) := by
  constructor
  · unfold remove_filtered_policy
    rw [Nat.ble_eq]
    have hlen : (1 ≤ (table.filter (removeFilteredPred pt field_index field_values)).length) ↔
        0 < (table.filter (removeFilteredPred pt field_index field_values)).length := by omega
    rw [hlen, List.length_pos_iff_exists_mem]
    constructor
    · rintro ⟨row, hrow⟩
      rw [List.mem_filter] at hrow
      exact ⟨row, hrow.1,
        (removeFilteredPred_iff pt field_index field_values row hfi).mp hrow.2⟩
    · rintro ⟨row, hrow, hspec⟩
      exact ⟨row, List.mem_filter.mpr
        ⟨hrow, (removeFilteredPred_iff pt field_index field_values row hfi).mpr hspec⟩⟩
  · intro row
    unfold remove_filtered_policy
    simp only [List.mem_filter, Bool.not_eq_true', Bool.eq_false_iff, ne_eq]
    rw [removeFilteredPred_iff pt field_index field_values row hfi]

/-- Witness for C2: with `field_index = 0` and no supplied values, the one
matching-ptype row is removed and the call reports true. -/
theorem remove_filtered_policy_spec_witness :
    (remove_filtered_policy ([⟨"p", "a", "b", "", "", "", ""⟩]) ("p") 0 ([])).2 = true :=
  ((remove_filtered_policy_spec ([⟨"p", "a", "b", "", "", "", ""⟩]) ("p") 0 ([])
      (by decide)).1).mpr
    ⟨⟨"p", "a", "b", "", "", "", ""⟩, by decide, rfl, fun i _ _ => Or.inl rfl⟩

/-! ### C3: transactional batches -/

theorem run_deletes_char (pt : String) :
    ∀ (rules : List (List String)) (working : Table),
      (((run_deletes pt working rules).isOk = true) ↔
        ∀ k, k < rules.length →
          delete_count (apply_deletes pt working (rules.take k)) pt (rules.getD k ([])) = 1) ∧
      (∀ w, run_deletes pt working rules = Except.ok w → w = apply_deletes pt working rules) := by
  intro rules
  induction rules with
  | nil =>
    intro working
    constructor
    · refine Iff.intro (fun _ k hk => ?_) (fun _ => rfl)
      simp at hk
    · intro w h
      injection h with h
      rw [← h]
      rfl
  | cons rule rest ih =>
    intro working
    by_cases hc : delete_count working pt rule = 1
    · have hstep : delete_exact_statement working pt rule =
          Except.ok (apply_delete working pt rule) := by
        unfold delete_exact_statement delete_count at *
        simp only [hc]
        rfl
      have hrun : run_deletes pt working (rule :: rest) =
          run_deletes pt (apply_delete working pt rule) rest := by
        simp only [run_deletes, hstep]
      constructor
      · rw [hrun, (ih (apply_delete working pt rule)).1]
        constructor
        · intro hall k hk
          cases k with
          | zero => simpa [apply_deletes] using hc
          | succ k =>
            have hkk := hall k (by simp only [List.length_cons] at hk; omega)
            simpa [List.take_succ_cons, List.getD_cons_succ, apply_deletes] using hkk
        · intro hall k hk
          have hkk := hall (k + 1) (by simp only [List.length_cons]; omega)
          simpa [List.take_succ_cons, List.getD_cons_succ, apply_deletes] using hkk
      · intro w h
        rw [hrun] at h
        rw [(ih (apply_delete working pt rule)).2 w h]
        rfl
    · have hstep : delete_exact_statement working pt rule =
          Except.error SqlxError.RowNotFound := by
        unfold delete_exact_statement
        rw [if_neg]
        intro hb
        rw [beq_iff_eq] at hb
        exact hc hb
      have hrun : run_deletes pt working (rule :: rest) =
          Except.error SqlxError.RowNotFound := by
        simp only [run_deletes, hstep]
      constructor
      · rw [hrun]
        refine Iff.intro (fun h => absurd h Bool.false_ne_true) (fun hall => ?_)
        exact absurd (by simpa [apply_deletes] using hall 0 (by simp)) hc
      · intro w h
        rw [hrun] at h
        cases h

theorem run_inserts_char :
    ∀ (rules : List CasbinRule) (working : Table),
      (((run_inserts working rules).isOk = true) ↔
        ∀ k, k < rules.length → ¬ (rules.getD k default ∈ working ++ rules.take k)) ∧
      (∀ w, run_inserts working rules = Except.ok w → w = working ++ rules) := by
  intro rules
  induction rules with
  | nil =>
    intro working
    constructor
    · refine Iff.intro (fun _ k hk => ?_) (fun _ => rfl)
      simp at hk
    · intro w h
      injection h with h
      rw [← h]
      simp
  | cons rule rest ih =>
    intro working
    by_cases hc : rule ∈ working
    · have hany : (working.any fun row => row == rule) = true := by
        rw [List.any_eq_true]
        exact ⟨rule, hc, by simp⟩
      have hrun : run_inserts working (rule :: rest) =
          Except.error SqlxError.UniqueViolation := by
        simp [run_inserts, insert_statement, insert_rows_affected, hany]
      constructor
      · rw [hrun]
        refine Iff.intro (fun h => absurd h Bool.false_ne_true) (fun hall => ?_)
        have h0 := hall 0 (by simp)
        simp only [List.take_zero, List.append_nil, List.getD_cons_zero] at h0
        exact absurd hc h0
      · intro w h
        rw [hrun] at h
        cases h
    · have hany : (working.any fun row => row == rule) = false := by
        rw [Bool.eq_false_iff]
        intro h
        rw [List.any_eq_true] at h
        obtain ⟨x, hx, hbeq⟩ := h
        rw [beq_iff_eq] at hbeq
        exact hc (hbeq ▸ hx)
      have hrun : run_inserts working (rule :: rest) = run_inserts (working ++ [rule]) rest := by
        simp [run_inserts, insert_statement, insert_rows_affected, hany]
      constructor
      · rw [hrun, (ih (working ++ [rule])).1]
        constructor
        · intro hall k hk
          cases k with
          | zero =>
            simp only [List.take_zero, List.append_nil, List.getD_cons_zero]
            exact hc
          | succ k =>
            have hkk := hall k (by simp only [List.length_cons] at hk; omega)
            simpa [List.take_succ_cons, List.getD_cons_succ, List.append_assoc] using hkk
        · intro hall k hk
          have hkk := hall (k + 1) (by simp only [List.length_cons]; omega)
          simpa [List.take_succ_cons, List.getD_cons_succ, List.append_assoc] using hkk
      · intro w h
        rw [hrun] at h
        rw [(ih (working ++ [rule])).2 w h, List.append_assoc]
        rfl

/-- C3 counterexample: `save_policy` on a two-row table with an empty rule
list commits (and clears the table) even though its opening clear statement
affected two rows, not exactly one. -/
theorem save_policy_clear_statement_counterexample :
    (save_policy ([⟨"p", "a", "", "", "", "", ""⟩, ⟨"p", "b", "", "", "", "", ""⟩]) ([])).2 =
      Except.ok () ∧
    (save_policy ([⟨"p", "a", "", "", "", "", ""⟩, ⟨"p", "b", "", "", "", "", ""⟩]) ([])).1 =
      ([] : Table) ∧
    save_policy_clear_rows_affected
      ([⟨"p", "a", "", "", "", "", ""⟩, ⟨"p", "b", "", "", "", "", ""⟩]) = 2 :=
  ⟨rfl, rfl, rfl⟩

/-- C3 (amended): any failing statement inside a batch rolls the whole
transaction back, leaving the stored table exactly as before the call; a
batch commits iff every per-rule statement affects exactly one row — each
DELETE of `remove_policies` matches exactly one row at its turn, no INSERT of
`add_policies` or `save_policy` hits a duplicate tuple — while the clear
statement opening `save_policy` is exempt from the one-row requirement. -/
theorem batch_transaction_atomicity_amended (table : Table) (pt : String)
    (rules : List (List String)) (rrules : List CasbinRule) :
    (∀ e, (remove_policies table pt rules).2 = Except.error e →
      (remove_policies table pt rules).1 = table) ∧
    ((remove_policies table pt rules).2 = Except.ok true ↔
      ∀ k, k < rules.length →
        delete_count (apply_deletes pt table (rules.take k)) pt (rules.getD k ([])) = 1) ∧
    ((remove_policies table pt rules).2 = Except.ok true →
      (remove_policies table pt rules).1 = apply_deletes pt table rules) ∧
    (∀ e, (add_policies table rrules).2 = Except.error e →
      (add_policies table rrules).1 = table) ∧
    ((add_policies table rrules).2 = Except.ok true ↔
      ∀ k, k < rrules.length → ¬ (rrules.getD k default ∈ table ++ rrules.take k)) ∧
    ((add_policies table rrules).2 = Except.ok true →
      (add_policies table rrules).1 = table ++ rrules) ∧
    (∀ e, (save_policy table rrules).2 = Except.error e →
      (save_policy table rrules).1 = table) ∧
    ((save_policy table rrules).2 = Except.ok () ↔
      ∀ k, k < rrules.length → ¬ (rrules.getD k default ∈ rrules.take k)) ∧
    ((save_policy table rrules).2 = Except.ok () →
      (save_policy table rrules).1 = rrules) := by
  have hd := run_deletes_char pt rules table
  have hi := run_inserts_char rrules table
  have hs := run_inserts_char rrules ([] : Table)
  refine ⟨?_, ?_, ?_, ?_, ?_, ?_, ?_, ?_, ?_⟩
  · intro e h
    unfold remove_policies at h ⊢
    cases hrd : run_deletes pt table rules with
    | ok w => rw [hrd] at h; simp at h
    | error e2 => rfl
  · unfold remove_policies
    cases hrd : run_deletes pt table rules with
    | ok w =>
      exact Iff.intro (fun _ => (hd.1).mp (by rw [hrd]; rfl)) (fun _ => rfl)
    | error e =>
      refine Iff.intro (fun h => absurd h (by simp)) (fun hall => ?_)
      exfalso
      have hok : (run_deletes pt table rules).isOk = true := (hd.1).mpr hall
      rw [hrd] at hok
      exact absurd hok Bool.false_ne_true
  · intro h
    unfold remove_policies at h ⊢
    cases hrd : run_deletes pt table rules with
    | ok w => exact (hd.2) w hrd
    | error e => rw [hrd] at h; simp at h
  · intro e h
    unfold add_policies at h ⊢
    cases hri : run_inserts table rrules with
    | ok w => rw [hri] at h; simp at h
    | error e2 => rfl
  · unfold add_policies
    cases hri : run_inserts table rrules with
    | ok w =>
      exact Iff.intro (fun _ => (hi.1).mp (by rw [hri]; rfl)) (fun _ => rfl)
    | error e =>
      refine Iff.intro (fun h => absurd h (by simp)) (fun hall => ?_)
      exfalso
      have hok : (run_inserts table rrules).isOk = true := (hi.1).mpr hall
      rw [hri] at hok
      exact absurd hok Bool.false_ne_true
  · intro h
    unfold add_policies at h ⊢
    cases hri : run_inserts table rrules with
    | ok w => exact (hi.2) w hri
    | error e => rw [hri] at h; simp at h
  · intro e h
    unfold save_policy at h ⊢
    cases hri : run_inserts ([] : Table) rrules with
    | ok w => rw [hri] at h; simp at h
    | error e2 => rfl
  · unfold save_policy
    cases hri : run_inserts ([] : Table) rrules with
    | ok w =>
      refine Iff.intro (fun _ k hk => ?_) (fun _ => rfl)
      have := (hs.1).mp (by rw [hri]; rfl) k hk
      simpa using this
    | error e =>
      refine Iff.intro (fun h => absurd h (by simp)) (fun hall => ?_)
      exfalso
      have hok : (run_inserts ([] : Table) rrules).isOk = true := by
        refine (hs.1).mpr fun k hk => ?_
        simpa using hall k hk
      rw [hri] at hok
      exact absurd hok Bool.false_ne_true
  · intro h
    unfold save_policy at h ⊢
    cases hri : run_inserts ([] : Table) rrules with
    | ok w =>
      have := (hs.2) w hri
      simpa using this
    | error e => rw [hri] at h; simp at h

/-- Witness for C3: a one-rule remove batch whose delete matches exactly one
row commits. -/
theorem batch_transaction_atomicity_amended_witness :
    (remove_policies ([⟨"p", "a", "", "", "", "", ""⟩]) ("p") ([["a"]])).2 =
      Except.ok true :=
  ((batch_transaction_atomicity_amended ([⟨"p", "a", "", "", "", "", ""⟩]) ("p")
      ([["a"]]) ([])).2.1).mpr (by decide)

/-! ### C5: filtered load -/

theorem likeMatch_percent (s : List Char) : likeMatch (['%']) s = true := by
  induction s with
  | nil => simp [likeMatch]
  | cons c t ih => simp [likeMatch, ih]

theorem strLike_percent (s : String) : strLike ("%") s = true := by
  have hp : ("%" : String).data = (['%'] : List Char) := rfl
  unfold strLike
  rw [hp]
  exact likeMatch_percent s.data

theorem strLike_gpercent (s : String) :
    strLike ("g%") s = true ↔ s.data.head? = some 'g' := by
  have hgp : ("g%" : String).data = (['g', '%'] : List Char) := rfl
  unfold strLike
  rw [hgp]
  cases hd : s.data with
  | nil =>
    simp [likeMatch]
  | cons c t =>
    have hred : likeMatch ((['g', '%'] : List Char)) (c :: t) =
        (('g' == c) && likeMatch (['%']) t) := by
      simp [likeMatch]
    rw [hred, Bool.and_eq_true, beq_iff_eq]
    constructor
    · rintro ⟨h1, -⟩
      rw [← h1]
      rfl
    · intro h
      injection h with h
      exact ⟨h.symm, likeMatch_percent t⟩

theorem strLike_ppercent (s : String) :
    strLike ("p%") s = true ↔ s.data.head? = some 'p' := by
  have hpp : ("p%" : String).data = (['p', '%'] : List Char) := rfl
  unfold strLike
  rw [hpp]
  cases hd : s.data with
  | nil =>
    simp [likeMatch]
  | cons c t =>
    have hred : likeMatch ((['p', '%'] : List Char)) (c :: t) =
        (('p' == c) && likeMatch (['%']) t) := by
      simp [likeMatch]
    rw [hred, Bool.and_eq_true, beq_iff_eq]
    constructor
    · rintro ⟨h1, -⟩
      rw [← h1]
      rfl
    · intro h
      injection h with h
      exact ⟨h.symm, likeMatch_percent t⟩

/-- C5: for six-pattern filters the filtered load succeeds and returns
exactly the rows satisfying the disjunction of the grouping branch (ptype
beginning with g, every field LIKE-matching the grouping pattern, where an
empty pattern — translated to the "%" wildcard — matches every stored value)
and the analogous policy branch. -/
theorem load_filtered_policy_spec (table : Table) (g p : List String)
    (hg : g.length = 6) (hp : p.length = 6) :
    (load_filtered_policy table g p).isSome = true ∧
    ∀ row, row ∈ (load_filtered_policy table g p).getD ([]) ↔ row ∈ table ∧
      ((row.ptype.data.head? = some 'g' ∧ ∀ i, i < 6 →
          (g.getD i ("") = "" ∨ strLike (g.getD i ("")) (fieldAt row i) = true)) ∨
       (row.ptype.data.head? = some 'p' ∧ ∀ i, i < 6 →
          (p.getD i ("") = "" ∨ strLike (p.getD i ("")) (fieldAt row i) = true))) := by
  obtain ⟨gf, pf, hfwv, hgflen, hpflen, hgfget, hpfget⟩ :=
    filtered_where_values_some g p (by omega) (by omega)
  have hload : load_filtered_policy table g p =
      some (table.filter (loadFilteredPred gf pf)) := by
    unfold load_filtered_policy
    rw [hfwv]
  have hdefault : ∀ (fres : List String), fres.length = 6 → ∀ i, i < 6 →
      fres.getD i ("%") = fres.getD i ("") := by
    intro fres hlen i hi
    rw [List.getD_eq_getElem fres ("%") (by omega), List.getD_eq_getElem fres ("") (by omega)]
  have hbranch : ∀ (f fres : List String), fres.length = 6 →
      (∀ j, j < 6 → fres.getD j ("") = if f.getD j ("") = "" then "%" else f.getD j ("")) →
      ∀ row : CasbinRule,
      (((List.range 6).all fun i => strLike (fres.getD i ("%")) (fieldAt row i)) = true ↔
        ∀ i, i < 6 → (f.getD i ("") = "" ∨ strLike (f.getD i ("")) (fieldAt row i) = true)) := by
    intro f fres hlen hget row
    rw [List.all_eq_true]
    constructor
    · intro hall i hi
      have h := hall i (List.mem_range.mpr hi)
      rw [hdefault fres hlen i hi, hget i hi] at h
      by_cases he : f.getD i ("") = ""
      · exact Or.inl he
      · rw [if_neg he] at h
        exact Or.inr h
    · intro hall i hi
      rw [List.mem_range] at hi
      rw [hdefault fres hlen i hi, hget i hi]
      by_cases he : f.getD i ("") = ""
      · rw [if_pos he]
        exact strLike_percent (fieldAt row i)
      · rw [if_neg he]
        rcases hall i hi with h | h
        · exact absurd h he
        · exact h
  refine ⟨by rw [hload]; rfl, fun row => ?_⟩
  rw [hload]
  simp only [Option.getD_some]
  rw [List.mem_filter]
  constructor
  · rintro ⟨hrow, hpred⟩
    refine ⟨hrow, ?_⟩
    unfold loadFilteredPred at hpred
    rw [Bool.or_eq_true, Bool.and_eq_true, Bool.and_eq_true] at hpred
    rcases hpred with ⟨hg1, hg2⟩ | ⟨hp1, hp2⟩
    · exact Or.inl ⟨(strLike_gpercent row.ptype).mp hg1,
        (hbranch g gf hgflen hgfget row).mp hg2⟩
    · exact Or.inr ⟨(strLike_ppercent row.ptype).mp hp1,
        (hbranch p pf hpflen hpfget row).mp hp2⟩
  · rintro ⟨hrow, hspec⟩
    refine ⟨hrow, ?_⟩
    unfold loadFilteredPred
    rw [Bool.or_eq_true, Bool.and_eq_true, Bool.and_eq_true]
    rcases hspec with ⟨h1, h2⟩ | ⟨h1, h2⟩
    · exact Or.inl ⟨(strLike_gpercent row.ptype).mpr h1,
        (hbranch g gf hgflen hgfget row).mpr h2⟩
    · exact Or.inr ⟨(strLike_ppercent row.ptype).mpr h1,
        (hbranch p pf hpflen hpfget row).mpr h2⟩

/-- Witness for C5: a policy row passes through an all-empty policy filter. -/
theorem load_filtered_policy_spec_witness :
    (⟨"p", "admin", "data1", "read", "", "", ""⟩ : CasbinRule) ∈
      (load_filtered_policy ([⟨"p", "admin", "data1", "read", "", "", ""⟩])
        (["alice", "", "", "", "", ""]) (["", "", "", "", "", ""])).getD ([]) :=
  ((load_filtered_policy_spec ([⟨"p", "admin", "data1", "read", "", "", ""⟩])
      (["alice", "", "", "", "", ""]) (["", "", "", "", "", ""])
      (by decide) (by decide)).2 (⟨"p", "admin", "data1", "read", "", "", ""⟩)).mpr
    ⟨by decide, Or.inr ⟨rfl, fun i hi => Or.inl (by interval_cases i <;> rfl)⟩⟩

/-! ### C8: the row-to-rule round trip -/

theorem dropWhile_replicate_append (n : Nat) (l : List String) :
    List.dropWhile (fun s => s == "") (List.replicate n ("") ++ l) =
      List.dropWhile (fun s => s == "") l := by
  induction n with
  | zero => rfl
  | succ n ih =>
    rw [List.replicate_succ, List.cons_append, List.dropWhile_cons, if_pos (by simp)]
    exact ih

theorem head_dropWhile_false (q : String → Bool) :
    ∀ (l : List String) (a : String), (List.dropWhile q l).head? = some a → q a = false := by
  intro l
  induction l with
  | nil =>
    intro a h
    simp at h
  | cons x t ih =>
    intro a h
    rw [List.dropWhile_cons] at h
    by_cases hq : q x = true
    · rw [if_pos hq] at h
      exact ih a h
    · rw [if_neg hq] at h
      injection h with h
      rw [← h]
      exact Bool.eq_false_iff.mpr hq

theorem to_abstract_normalize (rule : List String) (h6 : rule.length ≤ 6)
    (hlast : rule.getLast? ≠ some ("")) :
    to_abstract (normalize_casbin_rule rule) = rule := by
  rw [normalize_casbin_rule_eq_append rule h6]
  unfold to_abstract
  rw [List.reverse_append, List.reverse_replicate, dropWhile_replicate_append]
  cases hr : rule.reverse with
  | nil =>
    have hnil : rule = [] := by simpa using congrArg List.reverse hr
    simp [hnil]
  | cons a t =>
    have hlasta : rule.getLast? = some a := by
      rw [← List.head?_reverse, hr]
      rfl
    have ha : a ≠ "" := by
      intro hcon
      rw [hcon] at hlasta
      exact hlast hlasta
    rw [List.dropWhile_cons, if_neg (by simp [ha]), ← hr, List.reverse_reverse]

theorem to_abstract_no_trailing_empty (fields : List String) :
    (to_abstract fields).getLast? ≠ some ("") := by
  unfold to_abstract
  rw [List.getLast?_reverse]
  intro hcon
  have := head_dropWhile_false (fun s => s == "") fields.reverse ("") hcon
  simp at this

theorem to_abstract_length_le (fields : List String) :
    (to_abstract fields).length ≤ fields.length := by
  unfold to_abstract
  rw [List.length_reverse]
  calc (List.dropWhile (fun s => s == "") fields.reverse).length
      ≤ fields.reverse.length := (List.dropWhile_sublist _).length_le
    _ = fields.length := List.length_reverse _

/-- C8: for rules of arity at most six whose last field is non-empty (or
which are empty, so that `getLast?` is not an explicit empty field), padding
to fixed width and trimming trailing empties reconstructs the rule exactly;
in general the round trip is idempotent, losing only explicit trailing empty
fields. -/
theorem round_trip_spec (rule : List String) (h6 : rule.length ≤ 6) :
    (rule.getLast? ≠ some ("") → to_abstract (normalize_casbin_rule rule) = rule) ∧
    to_abstract (normalize_casbin_rule (to_abstract (normalize_casbin_rule rule))) =
      to_abstract (normalize_casbin_rule rule) := by
  refine ⟨fun hlast => to_abstract_normalize rule h6 hlast, ?_⟩
  apply to_abstract_normalize
  · calc (to_abstract (normalize_casbin_rule rule)).length
        ≤ (normalize_casbin_rule rule).length := to_abstract_length_le _
      _ = 6 := normalize_casbin_rule_length rule
    
  · exact to_abstract_no_trailing_empty _

/-- Witness for C8: a three-field rule with non-empty last field
round-trips. -/
theorem round_trip_spec_witness :
    to_abstract (normalize_casbin_rule (["g", "alice", "admin"])) =
      (["g", "alice", "admin"]) :=
  (round_trip_spec (["g", "alice", "admin"]) (by decide)).1 (by decide)

end SqlxAdapter
